import Mathlib

/-
Verification development for the ai-roast-meter repository.

Shallow embedding of the three core components described in the design
specification: the tone synthesizer and look-ahead music scheduler
(src/services/soundService.ts) and the camera session manager
(src/components/RoastForm.tsx), plus the generative-backend boundary
(src/constants.ts: generateRoast / fileToBase64) and the submit gating
of RoastForm.

Conventions of the embedding:
- JS numbers are modelled as rationals (`ℚ`); audio-clock instants and
  Math.random() draws are rationals, a draw being an arbitrary value in
  [0, 1).
- Math.random() is modelled by an explicit list of pre-drawn values
  consumed in call order; a run ends when the supplied randomness is
  exhausted.
- setTimeout is modelled by a bag of pending callback ids plus a counter;
  ids start at 1 (JS timer ids are positive, so `if (timerID)` is a
  definedness test).
- Strings are modelled as `List Char` where their contents matter.
-/

/- ================================================================
   soundService.ts — constants (lines 6-14)
   ================================================================ -/

/-- `const TEMPO = 110` (soundService.ts line 6). -/
def TEMPO : ℚ := 110

/-- `const LOOKAHEAD = 25.0` (ms): the poll interval of the scheduler loop. -/
def LOOKAHEAD : ℚ := 25

/-- `const SCHEDULE_AHEAD_TIME = 0.1` (sec): the look-ahead window. -/
def SCHEDULE_AHEAD_TIME : ℚ := 1 / 10

/-- `SCALE` (soundService.ts lines 11-14): the C-major pentatonic scale,
ten frequencies C4..A5. -/
def SCALE : List ℚ :=
  [26163 / 100, 29366 / 100, 32963 / 100, 392, 440,
   52325 / 100, 58733 / 100, 65926 / 100, 78399 / 100, 880]

/-- The swing offset computed in `scheduler` (line 261):
`(Math.random() * 0.05) - 0.025`, for a draw `r`. -/
def swingOf (r : ℚ) : ℚ := r * (5 / 100) - 25 / 1000

/-- The derived bound on the swing offset: for draws in [0,1) the swing lies
in [-maxSwing, maxSwing], symmetric around zero. -/
def maxSwing : ℚ := 25 / 1000

/-- The note index picked in `scheduleNote` (line 220):
`Math.floor(Math.random() * SCALE.length)` for a draw `r`. -/
def noteIdx (r : ℚ) : ℕ := (⌊r * (SCALE.length : ℚ)⌋).toNat

/-- The rest/note decision plus pitch pick of `scheduleNote` (lines 217-221):
`none` when the slot is a rest (`Math.random() < 0.2`), otherwise the index
into SCALE. `r1` is the rest draw, `r2` the pitch draw. -/
def scheduleNoteChoice (r1 r2 : ℚ) : Option ℕ :=
  if r1 < 2 / 10 then none else some (noteIdx r2)

/- ================================================================
   soundService.ts — the scheduler drain loop (lines 251-266)
   ================================================================ -/

/-- The `while (nextNoteTime < ctx.currentTime + SCHEDULE_AHEAD_TIME)` loop of
`scheduler` (lines 257-263), with `limit = ctx.currentTime +
SCHEDULE_AHEAD_TIME`. Each iteration calls `scheduleNote(nextNoteTime)`
(consuming a rest draw and, for a non-rest, a pitch draw) and then advances
`nextNoteTime` by `60/TEMPO` plus a swing (consuming a swing draw). Returns
the emitted slots as (time, none for rest / some pitch index), the final
`nextNoteTime`, and the unconsumed draws. The loop stops when the modelled
randomness is exhausted mid-iteration (end of the modelled run). The `ctx`
null check inside `scheduleNote` is vacuous here: the loop is only reached
when `scheduler` saw a non-null context (line 255). -/
def drain (limit : ℚ) : ℚ → List ℚ → List (ℚ × Option ℕ) × ℚ × List ℚ
  | next, [] => ([], next, [])
  | next, [r] => ([], next, [r])
  | next, r1 :: rb :: rest =>
    if next < limit then
      if r1 < 2 / 10 then
        -- rest slot: rb is the swing draw
        let res := drain limit (next + 60 / TEMPO + swingOf rb) rest
        ((next, none) :: res.1, res.2.1, res.2.2)
      else
        -- note slot: rb is the pitch draw, the swing draw follows
        match rest with
        | [] => ([], next, r1 :: rb :: [])
        | rsw :: rest2 =>
          let res := drain limit (next + 60 / TEMPO + swingOf rsw) rest2
          ((next, some (noteIdx rb)) :: res.1, res.2.1, res.2.2)
    else ([], next, r1 :: rb :: rest)

/- ================================================================
   soundService.ts — module state and the toggle / timer events
   ================================================================ -/

/-- The module-level mutable state of soundService.ts (lines 2-5) together
with the modelled platform: `hasCtx` is whether an AudioContext class exists
(line 19-22), `ctxTime` the audio clock, `pending` the ids of pending
setTimeout callbacks (all of them run `scheduler`), `rand` the remaining
pre-drawn Math.random() values, `played` the slots emitted so far. -/
structure SoundState where
  hasCtx : Bool
  ctxTime : ℚ
  musicEnabled : Bool
  nextNoteTime : ℚ
  timerID : Option ℕ
  pending : List ℕ
  nextTimerId : ℕ
  rand : List ℚ
  played : List (ℚ × Option ℕ)
deriving DecidableEq

/-- One call of `scheduler` (lines 251-266): return immediately when the
context is missing or music is disabled (line 255) — note this early return
does NOT reschedule; otherwise drain the look-ahead window and re-arm the
timer (`timerID = window.setTimeout(scheduler, LOOKAHEAD)`, line 265). -/
def schedulerBody (s : SoundState) : SoundState :=
  if s.hasCtx && s.musicEnabled then
    let res := drain (s.ctxTime + SCHEDULE_AHEAD_TIME) s.nextNoteTime s.rand
    { s with
      played := s.played ++ res.1
      nextNoteTime := res.2.1
      rand := res.2.2
      timerID := some s.nextTimerId
      pending := s.pending ++ [s.nextTimerId]
      nextTimerId := s.nextTimerId + 1 }
  else s

/-- `toggleBackgroundMusic(enable)` (lines 268-283), called with the audio
clock reading `now`. Sets `musicEnabled`; when enabling with a context
present, sets `nextNoteTime = ctx.currentTime + 0.1` and calls `scheduler()`
synchronously; when disabling, clears the (single) remembered timer id.
Note the enable path never inspects `timerID`. -/
def toggleBackgroundMusic (enable : Bool) (now : ℚ) (s : SoundState) : SoundState :=
  let s := { s with ctxTime := now, musicEnabled := enable }
  if enable then
    if s.hasCtx then
      schedulerBody { s with nextNoteTime := s.ctxTime + 1 / 10 }
    else s
  else
    match s.timerID with
    | some id => { s with pending := s.pending.filter (fun j => j != id), timerID := none }
    | none => s

/-- The event-loop firing of a pending setTimeout callback `id` at audio
clock `now`: the callback is removed from the pending bag and `scheduler`
runs. Firing an id that is not pending is a no-op. -/
def fireTimeout (id : ℕ) (now : ℚ) (s : SoundState) : SoundState :=
  if s.pending.contains id then
    schedulerBody { s with ctxTime := now, pending := s.pending.filter (fun j => j != id) }
  else s

/-- An event of the single-threaded event loop touching the scheduler. -/
inductive SEvent where
  | tog (enable : Bool) (now : ℚ)
  | fire (id : ℕ) (now : ℚ)
deriving DecidableEq

/-- Step one event. -/
def sStep (e : SEvent) (s : SoundState) : SoundState :=
  match e with
  | .tog b now => toggleBackgroundMusic b now s
  | .fire id now => fireTimeout id now s

/-- Run a list of events in order. -/
def sRun (evs : List SEvent) (s : SoundState) : SoundState :=
  evs.foldl (fun st e => sStep e st) s

/-- The module state at page load (lines 2-5), with an audio context
available and the given pre-drawn randomness. -/
def initSound (rand : List ℚ) : SoundState :=
  { hasCtx := true, ctxTime := 0, musicEnabled := false, nextNoteTime := 0,
    timerID := none, pending := [], nextTimerId := 1, rand := rand, played := [] }

/- ================================================================
   Theorems for claims C2 and C4 (code bugs in toggle re-entrancy)
   ================================================================ -/

/-- C2: the claim fails on the code. Calling `toggleBackgroundMusic(true)`
while the scheduler is already RUNNING starts a second timer chain: after
two enable calls two scheduling callbacks are pending at once, and after
one of them fires there are still two (each chain re-arms itself), so the
"at most one pending scheduling callback" property is violated. -/
theorem toggle_reentrant_second_timer_chain :
    (sRun [SEvent.tog true 0, SEvent.tog true 0] (initSound [])).pending = [1, 2]
    ∧ (sRun [SEvent.tog true 0, SEvent.tog true 0, SEvent.fire 1 0]
        (initSound [])).pending = [2, 3] := by
  constructor <;> rfl

/-- C4: the claim fails on the code. After `enable(true); enable(true);
enable(false)` the stop cancels only the most recently remembered timer, so
one scheduling callback is still pending while `timerID` is null — the
invariant "timerHandle is non-null iff a scheduling callback is pending"
does not hold after the stop, and the pending timer was not cancelled
before `enable(false)` returned. (When the orphaned callback later fires it
emits no notes, since `musicEnabled` is false.) -/
theorem toggle_off_leaves_orphan_callback :
    (sRun [SEvent.tog true 0, SEvent.tog true 0, SEvent.tog false 0]
      (initSound [])).timerID = none
    ∧ (sRun [SEvent.tog true 0, SEvent.tog true 0, SEvent.tog false 0]
        (initSound [])).pending = [1]
    ∧ (sRun [SEvent.tog true 0, SEvent.tog true 0, SEvent.tog false 0,
        SEvent.fire 1 0] (initSound [])).played = [] := by
  refine ⟨rfl, rfl, rfl⟩

/- ================================================================
   Theorem for claim C6 (per-slot rest probability and uniform pitch)
   ================================================================ -/

/-- C6: confirmed. For draws in [0,1): the slot is a rest exactly when the
rest draw falls in [0, 0.2) (the event of probability 0.2 under the uniform
draw); otherwise the emitted pitch index is `⌊r·10⌋`, which is a valid index
into the ten-element SCALE, and the draws mapped to index `i` are exactly
the interval [i/10, (i+1)/10) — each index receives an equal 1/10 share of
the uniform draw. Finally, the two drain-loop equations show that
`nextNoteTime` advances by the same base-plus-swing amount whether the slot
was a rest or a note. -/
theorem note_rest_and_uniform_pitch
    (r1 r2 : ℚ) (h1 : 0 ≤ r1) (h1' : r1 < 1) (h2 : 0 ≤ r2) (h2' : r2 < 1) :
    (scheduleNoteChoice r1 r2 = none ↔ r1 < 2 / 10)
    ∧ (2 / 10 ≤ r1 →
        scheduleNoteChoice r1 r2 = some (noteIdx r2) ∧ noteIdx r2 < SCALE.length)
    ∧ (∀ i : ℕ, i < SCALE.length →
        (noteIdx r2 = i ↔ (i : ℚ) / 10 ≤ r2 ∧ r2 < ((i : ℚ) + 1) / 10))
    ∧ (∀ limit next rsw rest, next < limit → r1 < 2 / 10 →
        drain limit next (r1 :: rsw :: rest)
          = ((next, none) :: (drain limit (next + 60 / TEMPO + swingOf rsw) rest).1,
             (drain limit (next + 60 / TEMPO + swingOf rsw) rest).2))
    ∧ (∀ limit next rsw rest, next < limit → ¬ r1 < 2 / 10 →
        drain limit next (r1 :: r2 :: rsw :: rest)
          = ((next, some (noteIdx r2))
               :: (drain limit (next + 60 / TEMPO + swingOf rsw) rest).1,
             (drain limit (next + 60 / TEMPO + swingOf rsw) rest).2)) := by
  have hlen : (SCALE.length : ℚ) = 10 := by norm_num [SCALE]
  have hlen' : SCALE.length = 10 := by norm_num [SCALE]
  have hfl0 : 0 ≤ ⌊r2 * (SCALE.length : ℚ)⌋ := by
    apply Int.floor_nonneg.mpr
    rw [hlen]
    positivity
  refine ⟨?_, ?_, ?_, ?_, ?_⟩
  · unfold scheduleNoteChoice
    split <;> simp_all
  · intro hge
    have : ¬ r1 < 2 / 10 := not_lt.mpr hge
    constructor
    · simp [scheduleNoteChoice, this]
    · unfold noteIdx
      have hlt : ⌊r2 * (SCALE.length : ℚ)⌋ < (SCALE.length : ℤ) := by
        apply Int.floor_lt.mpr
        rw [hlen]
        push_cast
        nlinarith
      omega
  · intro i hi
    unfold noteIdx
    rw [hlen]
    constructor
    · intro h
      have hfl : ⌊r2 * (10 : ℚ)⌋ = (i : ℤ) := by
        rw [hlen] at hfl0
        omega
      have := Int.floor_eq_iff.mp hfl
      obtain ⟨ha, hb⟩ := this
      push_cast at ha hb
      constructor <;> linarith
    · intro ⟨ha, hb⟩
      have hfl : ⌊r2 * (10 : ℚ)⌋ = (i : ℤ) := by
        apply Int.floor_eq_iff.mpr
        constructor <;> push_cast <;> linarith
      rw [hfl]
      omega
  · intro limit next rsw rest hlt hr
    rw [drain.eq_def]
    simp only [if_pos hlt, if_pos hr]
  · intro limit next rsw rest hlt hr
    rw [drain.eq_def]
    simp only [if_pos hlt, if_neg hr]

/-- Witness for C6 at concrete draws r1 = 1/2 (a note), r2 = 3/4
(index 7). -/
theorem note_rest_and_uniform_pitch_witness :
    ((0 : ℚ) ≤ 1 / 2 ∧ (1 / 2 : ℚ) < 1 ∧ (0 : ℚ) ≤ 3 / 4 ∧ (3 / 4 : ℚ) < 1)
    ∧ ((scheduleNoteChoice (1 / 2) (3 / 4) = none ↔ (1 / 2 : ℚ) < 2 / 10)
      ∧ ((2 / 10 : ℚ) ≤ 1 / 2 →
          scheduleNoteChoice (1 / 2) (3 / 4) = some (noteIdx (3 / 4))
          ∧ noteIdx (3 / 4) < SCALE.length)
      ∧ (∀ i : ℕ, i < SCALE.length →
          (noteIdx (3 / 4) = i ↔ (i : ℚ) / 10 ≤ 3 / 4 ∧ (3 / 4 : ℚ) < ((i : ℚ) + 1) / 10))
      ∧ (∀ limit next rsw rest, next < limit → (1 / 2 : ℚ) < 2 / 10 →
          drain limit next (1 / 2 :: rsw :: rest)
            = ((next, none) :: (drain limit (next + 60 / TEMPO + swingOf rsw) rest).1,
               (drain limit (next + 60 / TEMPO + swingOf rsw) rest).2))
      ∧ (∀ limit next rsw rest, next < limit → ¬ (1 / 2 : ℚ) < 2 / 10 →
          drain limit next (1 / 2 :: 3 / 4 :: rsw :: rest)
            = ((next, some (noteIdx (3 / 4)))
                 :: (drain limit (next + 60 / TEMPO + swingOf rsw) rest).1,
               (drain limit (next + 60 / TEMPO + swingOf rsw) rest).2))) :=
  ⟨by norm_num,
   note_rest_and_uniform_pitch (1 / 2) (3 / 4) (by norm_num) (by norm_num)
     (by norm_num) (by norm_num)⟩

/- ================================================================
   soundService.ts — sound effects (lines 37-208) for claim C7
   ================================================================ -/

/-- A primitive call against the platform audio subsystem, with the
parameters the source passes (frequencies in Hz, gains, time offsets in
seconds relative to `ctx.currentTime`). Any such call may throw, which is
what the `try { ... } catch` of every effect guards against. -/
inductive AudioOp where
  | resume
  | createOscillator
  | createGain
  | createBuffer (seconds : ℚ)
  | fillNoise
  | createBufferSource
  | createBiquadFilter (hz : ℚ)
  | connect
  | oscType (name : String)
  | setFrequency (hz : ℚ) (at_ : ℚ)
  | rampFrequencyExp (hz : ℚ) (at_ : ℚ)
  | setGain (g : ℚ) (at_ : ℚ)
  | rampGainExp (g : ℚ) (at_ : ℚ)
  | rampGainLin (g : ℚ) (at_ : ℚ)
  | startAt (at_ : ℚ)
  | stopAt (at_ : ℚ)

/-- The six exported sound effects. -/
inductive EffectKind where
  | click | hover | shutter | cameraStart | cameraStop | success

/-- The chord of `playSuccess` (line 183): C5, E5, G5, C6. -/
def successNotes : List ℚ := [52325 / 100, 65925 / 100, 78399 / 100, 104650 / 100]

/-- The audio-subsystem calls each effect body makes, in source order
(playClick lines 37-61, playHover 63-86, playCapture 88-123, playCameraStart
125-149, playCameraStop 151-175, playSuccess 177-208). -/
def effectOps : EffectKind → List AudioOp
  | .click =>
    [.createOscillator, .createGain, .connect, .connect, .oscType "sine",
     .setFrequency 600 0, .rampFrequencyExp 300 (5 / 100),
     .setGain (5 / 100) 0, .rampGainExp (1 / 1000) (5 / 100),
     .startAt 0, .stopAt (5 / 100)]
  | .hover =>
    [.createOscillator, .createGain, .connect, .connect, .oscType "triangle",
     .setFrequency 800 0, .setGain (2 / 100) 0, .rampGainExp (1 / 1000) (2 / 100),
     .startAt 0, .stopAt (2 / 100)]
  | .shutter =>
    [.createBuffer (15 / 100), .fillNoise, .createBufferSource, .createGain,
     .createBiquadFilter 1000, .connect, .connect, .connect,
     .setGain (3 / 10) 0, .rampGainExp (1 / 1000) (15 / 100), .startAt 0]
  | .cameraStart =>
    [.createOscillator, .createGain, .connect, .connect, .oscType "sine",
     .setFrequency 300 0, .rampFrequencyExp 600 (2 / 10),
     .setGain (5 / 100) 0, .rampGainLin (1 / 1000) (2 / 10),
     .startAt 0, .stopAt (2 / 10)]
  | .cameraStop =>
    [.createOscillator, .createGain, .connect, .connect, .oscType "sine",
     .setFrequency 500 0, .rampFrequencyExp 200 (15 / 100),
     .setGain (5 / 100) 0, .rampGainLin (1 / 1000) (15 / 100),
     .startAt 0, .stopAt (15 / 100)]
  | .success =>
    (successNotes.enum.map (fun p =>
      [AudioOp.createOscillator, .createGain, .connect, .connect, .oscType "sine",
       .setFrequency p.2 0, .setGain 0 ((p.1 : ℚ) * 8 / 100),
       .rampGainLin (5 / 100) ((p.1 : ℚ) * 8 / 100 + 5 / 100),
       .rampGainExp (1 / 1000) ((p.1 : ℚ) * 8 / 100 + 4 / 10),
       .startAt ((p.1 : ℚ) * 8 / 100), .stopAt ((p.1 : ℚ) * 8 / 100 + 4 / 10)])).flatten

/-- The platform audio behaviour an effect call runs against: whether an
AudioContext class exists at all, whether the context is currently
suspended, and which (if any) of the successive subsystem calls throws. -/
structure AudioEnv where
  hasCtx : Bool
  suspended : Bool
  failAt : ℕ → Bool

/-- Run the successive subsystem calls of an effect body: the i-th call
throws when `failAt i`; a throw aborts the body (modelled as `Except.error`),
otherwise the performed calls are returned. -/
def runOpsE (failAt : ℕ → Bool) : ℕ → List AudioOp → Except Unit (List AudioOp)
  | _, [] => .ok []
  | i, op :: rest =>
    if failAt i then .error ()
    else
      match runOpsE failAt (i + 1) rest with
      | .ok tr => .ok (op :: tr)
      | .error e => .error e

/-- One call of a sound-effect function (`playClick`, `playHover`,
`playCapture`, `playCameraStart`, `playCameraStop`, `playSuccess`): the body
first obtains the lazily-created context (`resumeCtx`, lines 27-33) —
if no AudioContext class exists the call returns having performed nothing;
if the context is suspended a best-effort `resume()` is issued whose failure
is swallowed by its own `.catch`; then the effect body runs inside
`try { ... } catch (e) { /* Ignore audio errors */ }`, so a throw from any
subsystem call is caught and discarded. The result is the performed calls;
`Except.error` would represent an exception escaping to the caller. -/
def playEffect (k : EffectKind) (env : AudioEnv) : Except Unit (List AudioOp) :=
  if env.hasCtx then
    let pre := if env.suspended then [AudioOp.resume] else []
    match runOpsE env.failAt 0 (effectOps k) with
    | .ok tr => .ok (pre ++ tr)
    | .error _ => .ok pre
  else .ok []

/-- C7: confirmed. For every effect kind and every behaviour of the audio
subsystem, a `playEffect` call never lets an exception escape to its caller
(the result is always `Except.ok`), and when the platform offers no audio
capability the call is a silent no-op performing no subsystem calls. -/
theorem playEffect_never_throws :
    (∀ (k : EffectKind) (env : AudioEnv), ∃ tr, playEffect k env = Except.ok tr)
    ∧ (∀ (k : EffectKind) (sus : Bool) (fl : ℕ → Bool),
        playEffect k { hasCtx := false, suspended := sus, failAt := fl }
          = Except.ok []) := by
  constructor
  · intro k env
    unfold playEffect
    split
    · cases h : runOpsE env.failAt 0 (effectOps k) <;> simp [h]
    · exact ⟨[], rfl⟩
  · intro k sus fl
    rfl

/- ================================================================
   Claim C3: monotone schedule times with bounded swing gaps
   ================================================================ -/

/-- All modelled Math.random() draws lie in [0, 1). -/
def RandOK (l : List ℚ) : Prop := ∀ r ∈ l, 0 ≤ r ∧ r < 1

/-- The inter-note gap bound of the claim: the gap from `a` to `b` lies in
[60/TEMPO - maxSwing, 60/TEMPO + maxSwing]. -/
def GapOK (a b : ℚ) : Prop :=
  60 / TEMPO - maxSwing ≤ b - a ∧ b - a ≤ 60 / TEMPO + maxSwing

/-- The times `ts` continue an emission whose previous time was `prev`, with
every consecutive gap (including the final step to the pending
`nextNoteTime` value `fin`) satisfying GapOK. -/
def TimesFrom (prev : ℚ) : List ℚ → ℚ → Prop
  | [], fin => GapOK prev fin
  | t :: ts, fin => GapOK prev t ∧ TimesFrom t ts fin

/-- The times `ts` are an emission run starting exactly at `start` (the
`nextNoteTime` on entry to the drain loop), ending with pending value
`fin`; an empty run leaves `fin = start`. -/
def TimesSeq (start : ℚ) : List ℚ → ℚ → Prop
  | [], fin => fin = start
  | t :: ts, fin => t = start ∧ TimesFrom t ts fin

/-- Invariant shape of the full played-times list relative to the pending
`nextNoteTime`. -/
def PlayedOK : List ℚ → ℚ → Prop
  | [], _ => True
  | t :: ts, next => TimesFrom t ts next

/-- The swing offset is bounded by maxSwing on either side for draws in
[0, 1). -/
theorem swingOf_bounds (r : ℚ) (h0 : 0 ≤ r) (h1 : r < 1) :
    -maxSwing ≤ swingOf r ∧ swingOf r ≤ maxSwing := by
  unfold swingOf maxSwing
  constructor <;> linarith

/-- Advancing by the base interval plus a swing realises a GapOK gap. -/
theorem GapOK_advance (next rb : ℚ) (h0 : 0 ≤ rb) (h1 : rb < 1) :
    GapOK next (next + 60 / TEMPO + swingOf rb) := by
  obtain ⟨ha, hb⟩ := swingOf_bounds rb h0 h1
  unfold GapOK
  constructor <;> linarith

/-- A GapOK gap is strictly positive, so the later time is strictly
greater. -/
theorem GapOK_lt (a b : ℚ) (h : GapOK a b) : a < b := by
  obtain ⟨h1, _⟩ := h
  unfold TEMPO maxSwing at h1
  linarith

/-- When the look-ahead window is already drained, the loop emits nothing
and consumes nothing. -/
theorem drain_not_lt (limit next : ℚ) (rand : List ℚ) (h : ¬ next < limit) :
    drain limit next rand = ([], next, rand) := by
  match rand with
  | [] => rfl
  | [r] => rfl
  | r1 :: rb :: rest =>
    rw [drain.eq_def]
    simp [if_neg h]

/-- A run starting at `start` prefixed by a GapOK gap from `prev` continues
`prev`. -/
theorem TimesFrom_of_TimesSeq (prev start fin : ℚ) (ts : List ℚ)
    (hg : GapOK prev start) (h : TimesSeq start ts fin) : TimesFrom prev ts fin := by
  cases ts with
  | nil =>
    unfold TimesSeq at h
    unfold TimesFrom
    rw [h]
    exact hg
  | cons t ts =>
    obtain ⟨h1, h2⟩ := h
    exact ⟨h1 ▸ hg, h2⟩

/-- What the drain loop emits is a well-formed emission run: the first slot
(if any) is at the incoming `nextNoteTime`, consecutive gaps satisfy GapOK
up to and including the outgoing `nextNoteTime`, and all unconsumed draws
are still in range. Stated with an explicit bound `n` on the draw-list
length for the induction. -/
theorem drain_spec_aux (limit : ℚ) :
    ∀ (n : ℕ) (rand : List ℚ), rand.length ≤ n → ∀ (next : ℚ), RandOK rand →
      TimesSeq next ((drain limit next rand).1.map Prod.fst) (drain limit next rand).2.1
      ∧ RandOK (drain limit next rand).2.2 := by
  intro n
  induction n with
  | zero =>
    intro rand hlen next hr
    have : rand = [] := List.length_eq_zero.mp (Nat.le_zero.mp hlen)
    subst this
    exact ⟨rfl, hr⟩
  | succ n ih =>
    intro rand hlen next hr
    match rand with
    | [] => exact ⟨rfl, hr⟩
    | [r] => exact ⟨rfl, hr⟩
    | r1 :: rb :: rest =>
      by_cases hlt : next < limit
      · by_cases hrest : r1 < 2 / 10
        · -- rest slot
          have hrb := hr rb (by simp)
          have htail : RandOK rest := fun r hmem => hr r (by simp [hmem])
          have hlen' : rest.length ≤ n := by
            simp only [List.length_cons] at hlen
            omega
          have := ih rest hlen' (next + 60 / TEMPO + swingOf rb) htail
          rw [drain.eq_def]
          simp only [if_pos hlt, if_pos hrest, List.map_cons]
          refine ⟨⟨rfl, ?_⟩, this.2⟩
          exact TimesFrom_of_TimesSeq next _ _ _
            (GapOK_advance next rb hrb.1 hrb.2) this.1
        · -- note slot
          match rest with
          | [] =>
            rw [drain.eq_def]
            simp only [if_pos hlt, if_neg hrest]
            exact ⟨rfl, hr⟩
          | rsw :: rest2 =>
            have hrsw := hr rsw (by simp)
            have htail : RandOK rest2 := fun r hmem => hr r (by simp [hmem])
            have hlen' : rest2.length ≤ n := by
              simp only [List.length_cons] at hlen
              omega
            have := ih rest2 hlen' (next + 60 / TEMPO + swingOf rsw) htail
            rw [drain.eq_def]
            simp only [if_pos hlt, if_neg hrest, List.map_cons]
            refine ⟨⟨rfl, ?_⟩, this.2⟩
            exact TimesFrom_of_TimesSeq next _ _ _
              (GapOK_advance next rsw hrsw.1 hrsw.2) this.1
      · rw [drain_not_lt limit next _ hlt]
        exact ⟨rfl, hr⟩

/-- drain_spec_aux applied at the draw list's own length. -/
theorem drain_spec (limit next : ℚ) (rand : List ℚ) (hr : RandOK rand) :
    TimesSeq next ((drain limit next rand).1.map Prod.fst) (drain limit next rand).2.1
    ∧ RandOK (drain limit next rand).2.2 :=
  drain_spec_aux limit rand.length rand le_rfl next hr

/-- Continuing a TimesFrom chain with a TimesSeq run appends. -/
theorem TimesFrom_append (ts : List ℚ) :
    ∀ (prev mid fin : ℚ) (us : List ℚ), TimesFrom prev ts mid →
      TimesSeq mid us fin → TimesFrom prev (ts ++ us) fin := by
  induction ts with
  | nil =>
    intro prev mid fin us h1 h2
    exact TimesFrom_of_TimesSeq prev mid fin us h1 h2
  | cons t ts ih =>
    intro prev mid fin us h1 h2
    exact ⟨h1.1, ih t mid fin us h1.2 h2⟩

/-- Appending a drain run to a well-formed played list keeps it
well-formed, with the run's outgoing `nextNoteTime` as the new pending
value. -/
theorem PlayedOK_append (ts us : List ℚ) (mid fin : ℚ)
    (h1 : PlayedOK ts mid) (h2 : TimesSeq mid us fin) :
    PlayedOK (ts ++ us) fin := by
  cases ts with
  | nil =>
    cases us with
    | nil => trivial
    | cons u us => exact h2.2
  | cons t ts =>
    exact TimesFrom_append ts t mid fin us h1 h2

/-- The run-level invariant for claim C3. -/
def SchedInv (s : SoundState) : Prop :=
  PlayedOK (s.played.map Prod.fst) s.nextNoteTime ∧ RandOK s.rand

/-- One `scheduler` call preserves the invariant. -/
theorem schedulerBody_inv (s : SoundState) (h : SchedInv s) :
    SchedInv (schedulerBody s) := by
  unfold schedulerBody
  split
  · have hd := drain_spec (s.ctxTime + SCHEDULE_AHEAD_TIME) s.nextNoteTime s.rand h.2
    refine ⟨?_, hd.2⟩
    rw [List.map_append]
    exact PlayedOK_append _ _ _ _ h.1 hd.1
  · exact h

/-- Firing a pending timer callback preserves the invariant. -/
theorem fireTimeout_inv (id : ℕ) (now : ℚ) (s : SoundState) (h : SchedInv s) :
    SchedInv (fireTimeout id now s) := by
  unfold fireTimeout
  split
  · exact schedulerBody_inv _ ⟨h.1, h.2⟩
  · exact h

/-- Whether an event is a timer firing (as opposed to a toggle). -/
def isFireEv : SEvent → Bool
  | .tog _ _ => false
  | .fire _ _ => true

/-- Any sequence of timer firings preserves the invariant. -/
theorem sRun_fires_inv (evs : List SEvent) :
    ∀ (s : SoundState), (∀ e ∈ evs, isFireEv e = true) → SchedInv s →
      SchedInv (sRun evs s) := by
  induction evs with
  | nil => intro s _ h; exact h
  | cons e evs ih =>
    intro s hf h
    have he : isFireEv e = true := hf e (by simp)
    match e with
    | .tog b now => simp [isFireEv] at he
    | .fire id now =>
      have : sRun (SEvent.fire id now :: evs) s = sRun evs (fireTimeout id now s) := rfl
      rw [this]
      exact ih _ (fun x hx => hf x (by simp [hx])) (fireTimeout_inv id now s h)

/-- Enabling the music from the initial state establishes the invariant:
the synchronous first `scheduler` call emits nothing because `nextNoteTime`
was just set to the edge of the look-ahead window. -/
theorem toggle_on_init_inv (rand : List ℚ) (t0 : ℚ) (hr : RandOK rand) :
    SchedInv (toggleBackgroundMusic true t0 (initSound rand)) := by
  unfold toggleBackgroundMusic initSound schedulerBody
  simp only [if_true]
  unfold SCHEDULE_AHEAD_TIME
  rw [drain_not_lt _ _ _ (lt_irrefl _)]
  exact ⟨trivial, hr⟩

/-- A TimesFrom chain, viewed from its first emitted time, is a strictly
increasing chain with GapOK gaps. -/
theorem chain_of_TimesFrom (ts : List ℚ) :
    ∀ (t next : ℚ), TimesFrom t ts next →
      (t :: ts).Chain' (fun a b =>
        a < b ∧ 60 / TEMPO - maxSwing ≤ b - a ∧ b - a ≤ 60 / TEMPO + maxSwing) := by
  induction ts with
  | nil => intro t next _; exact List.chain'_singleton t
  | cons u us ih =>
    intro t next h
    exact List.chain'_cons.mpr
      ⟨⟨GapOK_lt t u h.1, h.1.1, h.1.2⟩, ih u next h.2⟩

/-- A well-formed played list is a strictly increasing chain with GapOK
gaps. -/
theorem chain_of_PlayedOK (ts : List ℚ) (next : ℚ) (h : PlayedOK ts next) :
    ts.Chain' (fun a b =>
      a < b ∧ 60 / TEMPO - maxSwing ≤ b - a ∧ b - a ≤ 60 / TEMPO + maxSwing) := by
  cases ts with
  | nil => exact List.chain'_nil
  | cons t ts => exact chain_of_TimesFrom ts t next h

/-- C3: confirmed. In any run consisting of `enable(true)` followed by
arbitrary timer firings (the scheduler staying RUNNING), with every
Math.random() draw in [0, 1), the sequence of emitted schedule times is
strictly increasing and every consecutive gap lies within
[60/TEMPO - maxSwing, 60/TEMPO + maxSwing]; the swing offset itself is
bounded by maxSwing and symmetric around zero. -/
theorem scheduler_times_monotone_bounded
    (rand : List ℚ) (hr : RandOK rand) (t0 : ℚ)
    (evs : List SEvent) (hf : ∀ e ∈ evs, isFireEv e = true) :
    ((sRun evs (toggleBackgroundMusic true t0 (initSound rand))).played.map
        Prod.fst).Chain'
      (fun a b =>
        a < b ∧ 60 / TEMPO - maxSwing ≤ b - a ∧ b - a ≤ 60 / TEMPO + maxSwing)
    ∧ (∀ r : ℚ, 0 ≤ r → r < 1 → -maxSwing ≤ swingOf r ∧ swingOf r ≤ maxSwing) := by
  have hinv := sRun_fires_inv evs _ hf (toggle_on_init_inv rand t0 hr)
  exact ⟨chain_of_PlayedOK _ _ hinv.1, fun r h0 h1 => swingOf_bounds r h0 h1⟩

/-- Witness for C3: six draws of 1/2 and two timer firings; the run emits
the slots at times 1/10 and 71/110 with gap exactly 60/TEMPO. -/
theorem scheduler_times_monotone_bounded_witness :
    RandOK [1/2, 1/2, 1/2, 1/2, 1/2, 1/2]
    ∧ (∀ e ∈ [SEvent.fire 1 (1/2), SEvent.fire 2 1], isFireEv e = true)
    ∧ (((sRun [SEvent.fire 1 (1/2), SEvent.fire 2 1]
          (toggleBackgroundMusic true 0
            (initSound [1/2, 1/2, 1/2, 1/2, 1/2, 1/2]))).played.map
            Prod.fst).Chain'
        (fun a b =>
          a < b ∧ 60 / TEMPO - maxSwing ≤ b - a ∧ b - a ≤ 60 / TEMPO + maxSwing)
      ∧ (∀ r : ℚ, 0 ≤ r → r < 1 → -maxSwing ≤ swingOf r ∧ swingOf r ≤ maxSwing)) :=
  ⟨by intro r hmem
      simp only [List.mem_cons, List.not_mem_nil, or_false] at hmem
      rcases hmem with h | h | h | h | h | h <;> rw [h] <;> norm_num,
   by intro e hmem
      simp only [List.mem_cons, List.not_mem_nil, or_false] at hmem
      rcases hmem with h | h <;> rw [h] <;> rfl,
   scheduler_times_monotone_bounded [1/2, 1/2, 1/2, 1/2, 1/2, 1/2]
     (by intro r hmem
         simp only [List.mem_cons, List.not_mem_nil, or_false] at hmem
         rcases hmem with h | h | h | h | h | h <;> rw [h] <;> norm_num)
     0 [SEvent.fire 1 (1/2), SEvent.fire 2 1]
     (by intro e hmem
         simp only [List.mem_cons, List.not_mem_nil, or_false] at hmem
         rcases hmem with h | h <;> rw [h] <;> rfl)⟩

/- ================================================================
   RoastForm.tsx — camera session manager
   ================================================================ -/

/-- JS `String.prototype.includes`: `needle` occurs contiguously in
`hay`. -/
def jsIncludes (needle hay : List Char) : Bool :=
  hay.tails.any (fun t => needle.isPrefixOf t)

/-- A JS Error value as observed by the `catch` blocks: its `name` and
`message`. -/
structure JSErrorM where
  name : List Char
  message : List Char
deriving DecidableEq

/-- The user-facing message categories of the error taxonomy (RoastForm.tsx
lines 145-160), identified by category rather than by their full alert
text. -/
inductive CamErrMsg where
  | apiUnsupported
  | busyNotReadable
  | permissionDenied
  | noCameraFound
  | overconstrained
  | hardwareAborted
  | securityBlocked
  | genericFailure
deriving DecidableEq

/-- The error classification chain of `startCamera`'s outer catch
(RoastForm.tsx lines 145-160): starts from the generic "Could not access
camera." and refines by `err.name` / `err.message` tests, in source
order. -/
def classifyCameraError (err : JSErrorM) : CamErrMsg :=
  if err.name == "NotReadableError".toList
      || jsIncludes "Could not start video source".toList err.message then
    .busyNotReadable
  else if err.name == "NotAllowedError".toList
      || err.name == "PermissionDeniedError".toList then
    .permissionDenied
  else if err.name == "NotFoundError".toList
      || err.name == "DevicesNotFoundError".toList then
    .noCameraFound
  else if err.name == "OverconstrainedError".toList then
    .overconstrained
  else if err.name == "AbortError".toList then
    .hardwareAborted
  else if err.name == "SecurityError".toList then
    .securityBlocked
  else
    .genericFailure

/-- The platform behaviour one `startCamera` call runs against: whether
`navigator.mediaDevices.getUserMedia` exists, and the outcome of each of
the two acquisition attempts (a stream given by its track ids, or a thrown
error). -/
structure CamEnv where
  hasMediaDevicesAPI : Bool
  attemptUser : Except JSErrorM (List ℕ)
  attemptAny : Except JSErrorM (List ℕ)

/-- The camera-related component state of RoastForm (lines 18-27):
`streamRef` the held stream's track ids, `isCameraOpen`, and the tap-focus
indicator. -/
structure CamSession where
  streamRef : Option (List ℕ)
  isCameraOpen : Bool
  focusPoint : Option (ℚ × ℚ × Bool)
deriving DecidableEq

/-- `stopCamera` (lines 72-81): stops the held tracks, clears the stream
reference, closes the camera UI, clears the focus indicator. -/
def stopCamera (_s : CamSession) : CamSession :=
  { streamRef := none, isCameraOpen := false, focusPoint := none }

/-- `startCamera` (lines 83-165) run to completion against `env`:
defensive cleanup of any held stream, capability check, two acquisition
attempts whose individual failures are swallowed by their inner catches
(lines 104-119), then either success (store stream, open UI; the
best-effort autofocus block, lines 131-141, swallows its own errors) or the
synthesized `new Error("Could not initialize any camera source.")` of line
122 reaching the outer catch, which classifies THAT error and calls
`stopCamera`. Returns the session and the alert category, if any. -/
def startCamera (env : CamEnv) (s0 : CamSession) : CamSession × Option CamErrMsg :=
  let s := { s0 with streamRef := none }
  if !env.hasMediaDevicesAPI then (s, some .apiUnsupported)
  else
    let stream1 : Option (List ℕ) :=
      match env.attemptUser with
      | .ok st => some st
      | .error _ => none
    let stream2 : Option (List ℕ) :=
      match stream1 with
      | some st => some st
      | none =>
        match env.attemptAny with
        | .ok st => some st
        | .error _ => none
    match stream2 with
    | some st => ({ s with streamRef := some st, isCameraOpen := true }, none)
    | none =>
      let thrown : JSErrorM :=
        { name := "Error".toList
          message := "Could not initialize any camera source.".toList }
      (stopCamera s, some (classifyCameraError thrown))

/-- C1: the claim fails on the code. When both acquisition attempts reject
with a permission denial, the inner catches swallow the original
NotAllowedError, so the outer catch only ever sees the synthesized generic
Error of line 122 — the user gets the generic "could not access camera"
category, not the permission-denied category (which is distinct, and which
the classifier WOULD have produced had the original error reached it). The
session does end CLOSED holding no stream reference. -/
theorem startCamera_permission_denied_generic_message :
    (startCamera
        { hasMediaDevicesAPI := true
          attemptUser := .error
            { name := "NotAllowedError".toList, message := "Permission denied".toList }
          attemptAny := .error
            { name := "NotAllowedError".toList, message := "Permission denied".toList } }
        { streamRef := none, isCameraOpen := false, focusPoint := none }).2
      = some CamErrMsg.genericFailure
    ∧ CamErrMsg.genericFailure ≠ CamErrMsg.permissionDenied
    ∧ (startCamera
        { hasMediaDevicesAPI := true
          attemptUser := .error
            { name := "NotAllowedError".toList, message := "Permission denied".toList }
          attemptAny := .error
            { name := "NotAllowedError".toList, message := "Permission denied".toList } }
        { streamRef := none, isCameraOpen := false, focusPoint := none }).1.isCameraOpen
      = false
    ∧ (startCamera
        { hasMediaDevicesAPI := true
          attemptUser := .error
            { name := "NotAllowedError".toList, message := "Permission denied".toList }
          attemptAny := .error
            { name := "NotAllowedError".toList, message := "Permission denied".toList } }
        { streamRef := none, isCameraOpen := false, focusPoint := none }).1.streamRef
      = none
    ∧ classifyCameraError
        { name := "NotAllowedError".toList, message := "Permission denied".toList }
      = CamErrMsg.permissionDenied := by
  refine ⟨by decide, by decide, by decide, by decide, by decide⟩

/- ================================================================
   RoastForm.tsx — capturePhoto (lines 172-206) for claim C5
   ================================================================ -/

/-- The canvas 2D current-transform matrix restricted to the operations the
source performs (`translate` and `scale`, so the off-diagonal entries stay
zero): device = (a·u + e, d·v + f). -/
structure Ctx2D where
  a : ℤ
  d : ℤ
  e : ℤ
  f : ℤ
deriving DecidableEq

/-- The identity transform of a fresh 2D context. -/
def ctxIdentity : Ctx2D := { a := 1, d := 1, e := 0, f := 0 }

/-- `context.translate(tx, ty)`: post-compose the current matrix with a
translation. -/
def ctxTranslate (t : Ctx2D) (tx ty : ℤ) : Ctx2D :=
  { t with e := t.e + t.a * tx, f := t.f + t.d * ty }

/-- `context.scale(sx, sy)`: post-compose the current matrix with a
scaling. -/
def ctxScale (t : Ctx2D) (sx sy : ℤ) : Ctx2D :=
  { t with a := t.a * sx, d := t.d * sy }

/-- The destination pixel column covered by source pixel column `u` (whose
unit square spans [u, u+1)) under the transform, for |a| = 1: the lower
corner of the transformed span. -/
def destX (t : Ctx2D) (u : ℤ) : ℤ := min (t.a * u + t.e) (t.a * (u + 1) + t.e)

/-- The destination pixel row covered by source pixel row `v`, for
|d| = 1. -/
def destY (t : Ctx2D) (v : ℤ) : ℤ := min (t.d * v + t.f) (t.d * (v + 1) + t.f)

/-- The source pixel column painted onto destination column `x` (inverse of
`destX` for |a| = 1). -/
def srcX (t : Ctx2D) (x : ℤ) : ℤ := if 0 ≤ t.a then x - t.e else t.e - 1 - x

/-- The source pixel row painted onto destination row `y` (inverse of
`destY` for |d| = 1). -/
def srcY (t : Ctx2D) (y : ℤ) : ℤ := if 0 ≤ t.d then y - t.f else t.f - 1 - y

/-- `context.drawImage(video, 0, 0, W, H)` under the current transform, for
a W×H source raster: each destination pixel holds the source pixel mapped
onto it, 0 (transparent) elsewhere. -/
def drawImage (W H : ℕ) (t : Ctx2D) (pix : ℤ → ℤ → ℕ) : ℤ → ℤ → ℕ :=
  fun x y =>
    if 0 ≤ srcX t x ∧ srcX t x < (W : ℤ) ∧ 0 ≤ srcY t y ∧ srcY t y < (H : ℤ) then
      pix (srcX t x) (srcY t y)
    else 0

/-- Justification that `srcX` inverts `destX` (so `drawImage` indeed paints
source pixel (u,v) at the device position `destX`/`destY` prescribe), for
the unit-magnitude scalings the source uses. -/
theorem srcX_destX (t : Ctx2D) (u : ℤ) (h : t.a = 1 ∨ t.a = -1) :
    srcX t (destX t u) = u := by
  unfold srcX destX
  rcases h with h | h <;> rw [h] <;> simp <;> omega

/-- Companion for the vertical axis. -/
theorem srcY_destY (t : Ctx2D) (v : ℤ) (h : t.d = 1 ∨ t.d = -1) :
    srcY t (destY t v) = v := by
  unfold srcY destY
  rcases h with h | h <;> rw [h] <;> simp <;> omega

/-- A live video frame as read from the video element: native size and
raster. -/
structure VideoFrame where
  videoWidth : ℕ
  videoHeight : ℕ
  pix : ℤ → ℤ → ℕ

/-- The CapturedImage handed to the caller: the canvas contents encoded as
a JPEG file named camera-capture.jpg (lines 189-195). -/
structure CapturedImage where
  width : ℕ
  height : ℕ
  mime : String
  pix : ℤ → ℤ → ℕ

/-- `capturePhoto` (lines 172-206). The video element exists exactly while
the camera UI is open (it is rendered only in the `isCameraOpen` branch of
the JSX, lines 342-356), so the call receives `video = none` when the
session is CLOSED and returns without drawing (no image). Otherwise the
canvas is sized to the video's native W×H, the transform
`translate(canvas.width, 0); scale(-1, 1)` is applied, the frame is drawn,
the blob callback stops the camera and hands the file over. Encoding
(`canvas.toBlob`) is modelled as always succeeding. -/
def capturePhoto (s : CamSession) (video : Option VideoFrame) :
    CamSession × Option CapturedImage :=
  match video with
  | none => (s, none)
  | some fr =>
    let t := ctxScale (ctxTranslate ctxIdentity (fr.videoWidth : ℤ) 0) (-1) 1
    (stopCamera s,
     some { width := fr.videoWidth, height := fr.videoHeight, mime := "image/jpeg",
            pix := drawImage fr.videoWidth fr.videoHeight t fr.pix })

/-- C5: confirmed. Under the rendering invariant that the video element is
present exactly while the camera is open: a capture while OPEN transitions
the session to CLOSED (stream reference cleared) and yields exactly one
CapturedImage whose dimensions are the source frame's native W×H and whose
pixels are the left-right mirror of the source frame; a capture while
CLOSED is a no-op producing no image. -/
theorem capture_open_closed_mirror (s : CamSession) (video : Option VideoFrame)
    (hv : video.isSome = s.isCameraOpen) :
    (s.isCameraOpen = true →
      ∃ fr img, video = some fr
        ∧ (capturePhoto s video).1.isCameraOpen = false
        ∧ (capturePhoto s video).1.streamRef = none
        ∧ (capturePhoto s video).2 = some img
        ∧ img.width = fr.videoWidth
        ∧ img.height = fr.videoHeight
        ∧ ∀ x y : ℤ, 0 ≤ x → x < (fr.videoWidth : ℤ) →
            0 ≤ y → y < (fr.videoHeight : ℤ) →
            img.pix x y = fr.pix ((fr.videoWidth : ℤ) - 1 - x) y)
    ∧ (s.isCameraOpen = false → capturePhoto s video = (s, none)) := by
  constructor
  · intro hopen
    rw [hopen] at hv
    obtain ⟨fr, hfr⟩ := Option.isSome_iff_exists.mp hv
    subst hfr
    refine ⟨fr, _, rfl, rfl, rfl, rfl, rfl, rfl, ?_⟩
    intro x y hx0 hx1 hy0 hy1
    show drawImage fr.videoWidth fr.videoHeight
      (ctxScale (ctxTranslate ctxIdentity (fr.videoWidth : ℤ) 0) (-1) 1) fr.pix x y = _
    have ht : ctxScale (ctxTranslate ctxIdentity (fr.videoWidth : ℤ) 0) (-1) 1
        = { a := -1, d := 1, e := (fr.videoWidth : ℤ), f := 0 } := by
      simp [ctxScale, ctxTranslate, ctxIdentity]
    rw [ht]
    have hsx : srcX { a := -1, d := 1, e := (fr.videoWidth : ℤ), f := 0 } x
        = (fr.videoWidth : ℤ) - 1 - x := by
      unfold srcX
      norm_num
    have hsy : srcY { a := -1, d := 1, e := (fr.videoWidth : ℤ), f := 0 } y = y := by
      unfold srcY
      norm_num
    unfold drawImage
    rw [hsx, hsy, if_pos ⟨by omega, by omega, by omega, by omega⟩]
  · intro hclosed
    rw [hclosed] at hv
    have : video = none := by
      cases video with
      | none => rfl
      | some fr => simp at hv
    subst this
    rfl

/-- Witness for C5: a 2×1 frame whose pixel values equal the column index;
the captured image at column 0 shows source column 1. -/
theorem capture_open_closed_mirror_witness :
    ((some { videoWidth := 2, videoHeight := 1,
             pix := fun u _ => u.toNat : VideoFrame } : Option VideoFrame).isSome
        = ({ streamRef := some [1], isCameraOpen := true,
             focusPoint := none : CamSession }).isCameraOpen)
    ∧ ((({ streamRef := some [1], isCameraOpen := true,
           focusPoint := none : CamSession }).isCameraOpen = true →
        ∃ fr img,
          (some { videoWidth := 2, videoHeight := 1,
                  pix := fun u _ => u.toNat : VideoFrame } : Option VideoFrame) = some fr
          ∧ (capturePhoto
              { streamRef := some [1], isCameraOpen := true, focusPoint := none }
              (some { videoWidth := 2, videoHeight := 1,
                      pix := fun u _ => u.toNat })).1.isCameraOpen = false
          ∧ (capturePhoto
              { streamRef := some [1], isCameraOpen := true, focusPoint := none }
              (some { videoWidth := 2, videoHeight := 1,
                      pix := fun u _ => u.toNat })).1.streamRef = none
          ∧ (capturePhoto
              { streamRef := some [1], isCameraOpen := true, focusPoint := none }
              (some { videoWidth := 2, videoHeight := 1,
                      pix := fun u _ => u.toNat })).2 = some img
          ∧ img.width = fr.videoWidth
          ∧ img.height = fr.videoHeight
          ∧ ∀ x y : ℤ, 0 ≤ x → x < (fr.videoWidth : ℤ) →
              0 ≤ y → y < (fr.videoHeight : ℤ) →
              img.pix x y = fr.pix ((fr.videoWidth : ℤ) - 1 - x) y)
      ∧ (({ streamRef := some [1], isCameraOpen := true,
            focusPoint := none : CamSession }).isCameraOpen = false →
          capturePhoto
            { streamRef := some [1], isCameraOpen := true, focusPoint := none }
            (some { videoWidth := 2, videoHeight := 1, pix := fun u _ => u.toNat })
          = ({ streamRef := some [1], isCameraOpen := true, focusPoint := none },
             none))) :=
  ⟨rfl,
   capture_open_closed_mirror
     { streamRef := some [1], isCameraOpen := true, focusPoint := none }
     (some { videoWidth := 2, videoHeight := 1, pix := fun u _ => u.toNat })
     rfl⟩

/- ================================================================
   RoastForm.tsx — teardown on unmount (lines 256-263) for claim C8
   ================================================================ -/

/-- The component-plus-platform world for the teardown claim: whether the
component is mounted, the held stream ref, whether a `getUserMedia` call is
in flight, and the set of currently active (un-stopped) platform track
ids. -/
structure CamWorld where
  mounted : Bool
  streamRef : Option (List ℕ)
  isCameraOpen : Bool
  acqInFlight : Bool
  activeIds : List ℕ
deriving DecidableEq

/-- The world before any interaction: mounted, no stream, no live
tracks. -/
def initCamWorld : CamWorld :=
  { mounted := true, streamRef := none, isCameraOpen := false,
    acqInFlight := false, activeIds := [] }

/-- Events around the asynchronous boundary inside `startCamera`:
`startBegin` is the synchronous prefix of `startCamera` up to the awaited
`getUserMedia` (lines 84-107); `acqResolve` is the continuation that runs
when the acquisition promise fulfils with a live stream (lines 121-128);
`unmount` is React dismounting the surface, running the cleanup effect of
lines 256-263. -/
inductive CamEvent where
  | startBegin
  | acqResolve (tracks : List ℕ)
  | unmount
deriving DecidableEq

/-- Step one camera-lifecycle event. `startBegin` performs the defensive
cleanup of lines 87-90 (stop and drop any held stream) and then suspends
awaiting acquisition. `acqResolve` makes the platform-created tracks live,
stores the stream in the ref (a plain ref assignment, which happens whether
or not the component is still mounted) and opens the camera UI (a setState,
effective only while mounted). `unmount` runs the cleanup effect: stop
every track of the stream held AT THAT MOMENT (lines 259-261). -/
def camStep (e : CamEvent) (w : CamWorld) : CamWorld :=
  match e with
  | .startBegin =>
    let w :=
      match w.streamRef with
      | some st =>
        { w with activeIds := w.activeIds.filter (fun i => !(st.contains i)),
                 streamRef := none }
      | none => w
    { w with acqInFlight := true }
  | .acqResolve ts =>
    if w.acqInFlight then
      { w with acqInFlight := false, activeIds := w.activeIds ++ ts,
               streamRef := some ts, isCameraOpen := w.mounted }
    else w
  | .unmount =>
    let w :=
      match w.streamRef with
      | some st =>
        { w with activeIds := w.activeIds.filter (fun i => !(st.contains i)) }
      | none => w
    { w with mounted := false }

/-- Run a list of camera-lifecycle events in order. -/
def camRun (evs : List CamEvent) (w : CamWorld) : CamWorld :=
  evs.foldl (fun st e => camStep e st) w

/-- C8: the claim fails on the code in the OPENING case. Dismounting while
OPEN does stop every held track (first conjunct: zero active tracks
remain). But when the surface is dismounted while `startCamera`'s
acquisition is still pending (state OPENING), the cleanup effect finds no
held stream, and the acquisition continuation that runs after the unmount
stores the freshly created stream without anyone ever stopping its tracks:
an active track remains after the surface is gone. -/
theorem unmount_opening_race_leaves_active_track :
    (camRun [CamEvent.startBegin, CamEvent.acqResolve [1], CamEvent.unmount]
        initCamWorld).activeIds = []
    ∧ (camRun [CamEvent.startBegin, CamEvent.unmount, CamEvent.acqResolve [2]]
        initCamWorld).mounted = false
    ∧ (camRun [CamEvent.startBegin, CamEvent.unmount, CamEvent.acqResolve [2]]
        initCamWorld).activeIds = [2] := by
  refine ⟨rfl, rfl, rfl⟩

/- ================================================================
   constants.ts (geminiService) — fileToBase64 / generateRoast for C9
   ================================================================ -/

/-- The standard base64 alphabet used by the platform's data-URL
encoder. -/
def b64Table : List Char :=
  ['A', 'B', 'C', 'D', 'E', 'F', 'G', 'H', 'I', 'J', 'K', 'L', 'M',
   'N', 'O', 'P', 'Q', 'R', 'S', 'T', 'U', 'V', 'W', 'X', 'Y', 'Z',
   'a', 'b', 'c', 'd', 'e', 'f', 'g', 'h', 'i', 'j', 'k', 'l', 'm',
   'n', 'o', 'p', 'q', 'r', 's', 't', 'u', 'v', 'w', 'x', 'y', 'z',
   '0', '1', '2', '3', '4', '5', '6', '7', '8', '9', '+', '/']

/-- One base64 alphabet character. -/
def b64Char (n : ℕ) : Char := b64Table.getD n 'A'

/-- Model of the platform base64 encoder behind `FileReader.readAsDataURL`:
bytes are taken three at a time into four alphabet characters, with `=`
padding (RFC 4648). -/
def base64Chunks : List ℕ → List Char
  | [] => []
  | [b1] => [b64Char (b1 / 4), b64Char (b1 % 4 * 16), '=', '=']
  | [b1, b2] =>
    [b64Char (b1 / 4), b64Char (b1 % 4 * 16 + b2 / 16), b64Char (b2 % 16 * 4), '=']
  | b1 :: b2 :: b3 :: rest =>
    b64Char (b1 / 4) :: b64Char (b1 % 4 * 16 + b2 / 16)
      :: b64Char (b2 % 16 * 4 + b3 / 64) :: b64Char (b3 % 64) :: base64Chunks rest

/-- JS `String.prototype.split(sep)` on character lists: `"".split(sep)`
is `[""]`, and separators delimit (possibly empty) fields. -/
def jsSplit (sep : Char) : List Char → List (List Char)
  | [] => [[]]
  | c :: rest =>
    if c = sep then [] :: jsSplit sep rest
    else
      match jsSplit sep rest with
      | h :: t => (c :: h) :: t
      | [] => [[c]]

/-- A selected image file: declared MIME type and raw bytes. -/
structure JSFile where
  mime : List Char
  bytes : List ℕ

/-- Model of `FileReader.readAsDataURL`'s result for an image file:
`"data:<mime>;base64,<payload>"`. -/
def dataURL (mime : List Char) (bytes : List ℕ) : List Char :=
  "data:".toList ++ mime ++ ";base64,".toList ++ base64Chunks bytes

/-- `fileToBase64` (constants.ts lines 188-200): read the file as a data
URL and return `result.split(',')[1]` — everything after the first comma
(`none` models JS `undefined` when no comma exists). -/
def fileToBase64 (f : JSFile) : Option (List Char) :=
  (jsSplit ',' (dataURL f.mime f.bytes))[1]?

/-- One entry of the `parts` array sent to the generative backend
(generateRoast lines 123-156). -/
inductive GenPart where
  | inlineData (mimeType : List Char) (data : List Char)
  | textPart (prompt : List Char)
deriving DecidableEq

/-- The `parts` array `generateRoast` builds (lines 123-156): the inline
image data (when a file is present) followed by the text prompt. -/
def requestParts (file : Option JSFile) (prompt : List Char) : List GenPart :=
  (match file with
   | some f => [GenPart.inlineData f.mime ((fileToBase64 f).getD [])]
   | none => []) ++ [GenPart.textPart prompt]

/-- The JSON result shape (types.ts). -/
structure RoastResultData where
  roastType : List Char
  message : List Char
  vibe : List Char

/-- The single generic failure message thrown to the caller (constants.ts
line 184). -/
def failGeneric : List Char := "Failed to generate roast. Please try again.".toList

/-- The response handling of `generateRoast` (lines 158-185): a missing or
empty `response.text` throws inside the try, any `JSON.parse` failure
throws inside the try, and the catch converts every such failure into the
single generic error. `parseJSON` is the platform's JSON parser for the
expected result shape. -/
def generateRoastOutcome (respText : Option (List Char))
    (parseJSON : List Char → Option RoastResultData) :
    Except (List Char) RoastResultData :=
  match respText with
  | none => .error failGeneric
  | some t =>
    if t.isEmpty then .error failGeneric
    else
      match parseJSON t with
      | none => .error failGeneric
      | some d => .ok d

/-- No base64 alphabet character (nor the `=` pad, nor the out-of-range
default) is a comma. -/
theorem b64Char_ne_comma (n : ℕ) : b64Char n ≠ ',' := by
  unfold b64Char
  rcases Nat.lt_or_ge n b64Table.length with h | h
  · rw [List.getD_eq_getElem _ _ h]
    have hall : ∀ c ∈ b64Table, c ≠ ',' := by decide
    exact hall _ (List.getElem_mem h)
  · rw [List.getD_eq_default _ _ h]
    decide

/-- The base64 payload never contains a comma. -/
theorem base64_no_comma : ∀ (n : ℕ) (bytes : List ℕ), bytes.length ≤ n →
    ',' ∉ base64Chunks bytes := by
  intro n
  induction n with
  | zero =>
    intro bytes hlen
    have : bytes = [] := List.length_eq_zero.mp (Nat.le_zero.mp hlen)
    subst this
    simp [base64Chunks]
  | succ n ih =>
    intro bytes hlen
    match bytes with
    | [] => simp [base64Chunks]
    | [b1] =>
      simp only [base64Chunks, List.mem_cons, List.not_mem_nil, or_false]
      intro h
      rcases h with h | h | h | h
      · exact b64Char_ne_comma _ h.symm
      · exact b64Char_ne_comma _ h.symm
      · simp at h
      · simp at h
    | [b1, b2] =>
      simp only [base64Chunks, List.mem_cons, List.not_mem_nil, or_false]
      intro h
      rcases h with h | h | h | h
      · exact b64Char_ne_comma _ h.symm
      · exact b64Char_ne_comma _ h.symm
      · exact b64Char_ne_comma _ h.symm
      · simp at h
    | b1 :: b2 :: b3 :: rest =>
      have hlen' : rest.length ≤ n := by
        simp only [List.length_cons] at hlen
        omega
      simp only [base64Chunks, List.mem_cons]
      intro h
      rcases h with h | h | h | h | h
      · exact b64Char_ne_comma _ h.symm
      · exact b64Char_ne_comma _ h.symm
      · exact b64Char_ne_comma _ h.symm
      · exact b64Char_ne_comma _ h.symm
      · exact ih rest hlen' h

/-- Splitting a separator-free list yields the single field. -/
theorem jsSplit_no_sep (sep : Char) : ∀ (l : List Char), sep ∉ l →
    jsSplit sep l = [l] := by
  intro l
  induction l with
  | nil => intro _; rfl
  | cons c rest ih =>
    intro h
    have hc : ¬ c = sep := fun he => h (he ▸ List.mem_cons_self c rest)
    have hr : sep ∉ rest := fun hm => h (List.mem_cons_of_mem c hm)
    unfold jsSplit
    rw [if_neg hc, ih hr]

/-- Splitting at the first separator after a separator-free field. -/
theorem jsSplit_field (sep : Char) : ∀ (pre suf : List Char), sep ∉ pre →
    jsSplit sep (pre ++ sep :: suf) = pre :: jsSplit sep suf := by
  intro pre
  induction pre with
  | nil =>
    intro suf _
    show jsSplit sep (sep :: suf) = [] :: jsSplit sep suf
    simp [jsSplit]
  | cons c pre ih =>
    intro suf h
    have hc : ¬ c = sep := fun he => h (he ▸ List.mem_cons_self c pre)
    have hp : sep ∉ pre := fun hm => h (List.mem_cons_of_mem c hm)
    show jsSplit sep (c :: (pre ++ sep :: suf)) = (c :: pre) :: jsSplit sep suf
    simp only [jsSplit]
    rw [if_neg hc, ih suf hp]

/-- C9: confirmed. For a file whose MIME type contains no comma, the data
transmitted to the backend is exactly the base64 encoding of the file's
bytes — the data-URL prefix is stripped — and a missing, empty, or
unparseable backend response surfaces as the single generic failure
message. -/
theorem backend_base64_and_generic_failure
    (f : JSFile) (hm : ',' ∉ f.mime) (prompt t : List Char)
    (parse : List Char → Option RoastResultData) (hpt : parse t = none) :
    fileToBase64 f = some (base64Chunks f.bytes)
    ∧ requestParts (some f) prompt
        = [GenPart.inlineData f.mime (base64Chunks f.bytes), GenPart.textPart prompt]
    ∧ generateRoastOutcome none parse = .error failGeneric
    ∧ generateRoastOutcome (some []) parse = .error failGeneric
    ∧ generateRoastOutcome (some t) parse = .error failGeneric := by
  have hshape : dataURL f.mime f.bytes
      = ("data:".toList ++ f.mime ++ ";base64".toList) ++ ',' :: base64Chunks f.bytes := by
    unfold dataURL
    rw [show ";base64,".toList = ";base64".toList ++ [','] from rfl]
    simp [List.append_assoc]
  have hpre : ',' ∉ ("data:".toList ++ f.mime ++ ";base64".toList) := by
    intro hmem
    rcases List.mem_append.mp hmem with hmem | hmem
    · rcases List.mem_append.mp hmem with hmem | hmem
      · simp at hmem
      · exact hm hmem
    · simp at hmem
  have hmain : fileToBase64 f = some (base64Chunks f.bytes) := by
    unfold fileToBase64
    rw [hshape, jsSplit_field ',' _ _ hpre,
      jsSplit_no_sep ',' _ (base64_no_comma f.bytes.length f.bytes le_rfl)]
    rfl
  refine ⟨hmain, ?_, rfl, rfl, ?_⟩
  · show [GenPart.inlineData f.mime ((fileToBase64 f).getD [])] ++ [GenPart.textPart prompt]
      = [GenPart.inlineData f.mime (base64Chunks f.bytes), GenPart.textPart prompt]
    rw [hmain]
    rfl
  · simp only [generateRoastOutcome]
    by_cases ht : t.isEmpty
    · rw [if_pos ht]
    · rw [if_neg ht, hpt]

/-- Witness for C9 at a concrete JPEG-like file and an always-failing
parser. -/
theorem backend_base64_and_generic_failure_witness :
    (',' ∉ ("image/jpeg".toList))
    ∧ ((fun _ : List Char => (none : Option RoastResultData)) "x".toList = none)
    ∧ (fileToBase64 { mime := "image/jpeg".toList, bytes := [255, 216, 255] }
        = some (base64Chunks [255, 216, 255])
      ∧ requestParts (some { mime := "image/jpeg".toList, bytes := [255, 216, 255] })
          "p".toList
        = [GenPart.inlineData "image/jpeg".toList (base64Chunks [255, 216, 255]),
           GenPart.textPart "p".toList]
      ∧ generateRoastOutcome none (fun _ => none) = .error failGeneric
      ∧ generateRoastOutcome (some []) (fun _ => none) = .error failGeneric
      ∧ generateRoastOutcome (some "x".toList) (fun _ => none) = .error failGeneric) :=
  ⟨by decide, rfl,
   backend_base64_and_generic_failure
     { mime := "image/jpeg".toList, bytes := [255, 216, 255] } (by decide)
     "p".toList "x".toList (fun _ => none) rfl⟩

/- ================================================================
   RoastForm.tsx — submit gating (lines 265-273, 509-517) for C10
   ================================================================ -/

/-- The whitespace characters relevant to JS `String.prototype.trim` in
this model (the ASCII whitespace the claim's inputs use). -/
def isJSWhitespace (c : Char) : Bool :=
  c == ' ' || c == '\t' || c == '\n' || c == '\r'

/-- JS `text.trim()`: strip whitespace from both ends. -/
def jsTrim (s : List Char) : List Char :=
  ((s.dropWhile isJSWhitespace).reverse.dropWhile isJSWhitespace).reverse

/-- `handleSubmit` (lines 265-273): returns whether `onSubmit` is invoked.
The guard is `if (!textInput.trim() && !selectedFile) { alert(...); return }`
— a falsy (empty) TRIMMED text together with no file blocks the
submission. -/
def handleSubmitCalls (text : List Char) (file : Option Unit) : Bool :=
  if (jsTrim text).isEmpty && file.isNone then false else true

/-- The submit button's `disabled` condition (lines 509-517):
`isLoading || isImageLoading || (!textInput && !selectedFile)` — note it
tests the UNtrimmed text for emptiness. -/
def submitDisabled (isLoading isImageLoading : Bool) (text : List Char)
    (file : Option Unit) : Bool :=
  isLoading || isImageLoading || (text.isEmpty && file.isNone)

/-- Trimming an all-whitespace text yields the empty text. -/
theorem jsTrim_all_ws (text : List Char)
    (h : ∀ c ∈ text, isJSWhitespace c = true) : jsTrim text = [] := by
  unfold jsTrim
  rw [List.dropWhile_eq_nil_iff.mpr h]
  rfl

/-- C10: confirmed. A submission reaches `onSubmit` exactly when the
trimmed text is non-empty or a file is selected; and for a non-empty
all-whitespace text with no file, the submit handler blocks the request
even though the button's disabled check (which tests the untrimmed text)
leaves the button enabled when nothing is loading. -/
theorem submit_gating_trimmed_guard_vs_untrimmed_disabled :
    (∀ (text : List Char) (file : Option Unit),
      handleSubmitCalls text file = true
        ↔ ((jsTrim text).isEmpty = false ∨ file.isSome = true))
    ∧ (∀ text : List Char, text ≠ [] → (∀ c ∈ text, isJSWhitespace c = true) →
        handleSubmitCalls text none = false
        ∧ submitDisabled false false text none = false) := by
  constructor
  · intro text file
    cases file with
    | none =>
      cases hv : (jsTrim text).isEmpty <;>
        simp [handleSubmitCalls, hv]
    | some u =>
      cases hv : (jsTrim text).isEmpty <;>
        simp [handleSubmitCalls, hv]
  · intro text hne hws
    constructor
    · have : jsTrim text = [] := jsTrim_all_ws text hws
      simp [handleSubmitCalls, this]
    · match text with
      | [] => exact absurd rfl hne
      | c :: cs => rfl

/-- Witness for C10 at the single-space text with no file: blocked by the
handler, yet the button is enabled. -/
theorem submit_gating_witness :
    (([' '] : List Char) ≠ [] ∧ (∀ c ∈ ([' '] : List Char), isJSWhitespace c = true))
    ∧ (handleSubmitCalls [' '] none = false
      ∧ submitDisabled false false [' '] none = false) :=
  ⟨⟨by decide, by decide⟩,
   submit_gating_trimmed_guard_vs_untrimmed_disabled.2 [' '] (by decide) (by decide)⟩
